import Mathlib

/-!
Basic-Graphics-Library-in-C: a shallow embedding of `library.c` and `driver.c`.

The framebuffer is the memory that `buffer` points to, seen as 16-bit cells:
a function from the cell index (the `scale` that `draw_pixel` adds to `buffer`)
to the `color_t` stored there.  The stride `fixed_info.line_length` and the height
`screen_info.yres_virtual` are the 32-bit unsigned fields of the kernel's
`struct fb_fix_screeninfo` and `struct fb_var_screeninfo`; C arithmetic on them
is arithmetic modulo `2^32`, which the definitions spell out.  `int` values are
integers.  Signed overflow is undefined in C: the sums `x1 + width` and `y1 + height` of
`draw_rect` are taken as a two's-complement build computes them (`int32`), and the
theorems on `draw_rect` and on the glyph layout of `draw_text` are stated for arguments
on which no `int` operation overflows (`IsInt`).
-/

namespace Graphics

/-! ## Pixel format -/

/-- `pixel_color` (library.c 245-251).  `color_t` is `unsigned short`, so each
assignment to the local `pixel_color` keeps the low 16 bits. -/
def pixel_color (red green blue : Nat) : Nat :=
  let pixel_color := ((red &&& 0x1f) <<< 11) % 65536
  let pixel_color := (pixel_color ||| ((green &&& 0x3f) <<< 5)) % 65536
  let pixel_color := (pixel_color ||| ((blue &&& 0x1f) <<< 0)) % 65536
  pixel_color

/-! ## The mapped surface -/

/-- The surface as 16-bit cells: cell index to stored colour. -/
abbrev Buffer := Nat → Nat

/-- `size = screen_info.yres_virtual * fixed_info.line_length` (library.c 48): a
product of two 32-bit unsigned values, the byte length handed to `mmap`. -/
def size (yres_virtual line_length : Nat) : Nat :=
  (yres_virtual * line_length) % 4294967296

/-- The expression `((fixed_info.line_length / (16/8)) * y) + x` of `draw_pixel`
(library.c 155): `line_length` is a 32-bit unsigned, `x` and `y` are converted to
it, and the product and the sum are taken modulo `2^32`. -/
def scale (line_length : Nat) (x y : Int) : Nat :=
  ((((line_length / (16 / 8) : Nat) : Int) * y + x) % 4294967296).toNat

/-- `draw_pixel` (library.c 153-158): the guard tests the fixed window
`0..639 x 0..479`; inside it one cell is overwritten. -/
def draw_pixel (line_length : Nat) (buffer : Buffer) (x y : Int) (color : Nat) : Buffer :=
  if y ≤ 479 ∧ x ≤ 639 ∧ x ≥ 0 ∧ y ≥ 0 then
    fun p => if p = scale line_length x y then color else buffer p
  else buffer

/-! ## Rectangles -/

/-- The values of the type `int` (32 bits). -/
def IsInt (v : Int) : Prop := -2147483648 ≤ v ∧ v ≤ 2147483647

/-- The `int` a two's-complement build stores for the mathematical value `v` of an
`int` sum: `v` itself when it is representable, `v` reduced modulo `2^32` into the
range of `int` otherwise. -/
def int32 (v : Int) : Int := (v + 2147483648) % 4294967296 - 2147483648

/-- Inner loop of `draw_rect` (library.c 168-170), `for (y = ...; y < y1 + height; y++)`:
`n` iterations remain and `y` is the loop variable. -/
def draw_rect_column (line_length : Nat) (x : Int) (c : Nat) : Nat → Int → Buffer → Buffer
  | 0, _, buffer => buffer
  | n + 1, y, buffer =>
    draw_rect_column line_length x c n (y + 1) (draw_pixel line_length buffer x y c)

/-- Outer loop of `draw_rect` (library.c 167-171), `for (x = ...; x < x1 + width; x++)`:
`n` iterations remain and `x` is the loop variable; each iteration runs the inner
loop from `y = y1` up to the `int` bound `y1 + height`, which takes `bound - y1` steps
when that is positive and none otherwise (a loop variable below an `int` bound is
incremented without overflow). -/
def draw_rect_columns (line_length : Nat) (y1 height : Int) (c : Nat) :
    Nat → Int → Buffer → Buffer
  | 0, _, buffer => buffer
  | n + 1, x, buffer =>
    draw_rect_columns line_length y1 height c n (x + 1)
      (draw_rect_column line_length x c (int32 (y1 + height) - y1).toNat y1 buffer)

/-- `draw_rect` (library.c 165-172): the outer loop starts at `x = x1` and runs up to
the `int` bound `x1 + width`, which takes `bound - x1` steps when that is positive and
none otherwise. -/
def draw_rect (line_length : Nat) (buffer : Buffer) (x1 y1 width height : Int) (c : Nat) :
    Buffer :=
  draw_rect_columns line_length y1 height c (int32 (x1 + width) - x1).toNat x1 buffer

/-! ## Text -/

/-- The variables `draw_text` updates while it runs: the cursor `x`, `y`, the
column `constX` the cursor returns to after a glyph row, the surface, and the
indices at which `iso_font` has been read so far, in the order of the reads. -/
structure TextState where
  x : Int
  y : Int
  constX : Int
  buffer : Buffer
  reads : List Int

/-- The `k` loop of `draw_text` (library.c 220-227): `n` iterations remain; a set
bit `k` of `hex` draws a pixel at the cursor, and the cursor moves one column right
either way. -/
def draw_text_bits (line_length : Nat) (c : Nat) (hex : Nat) :
    Nat → Nat → TextState → TextState
  | 0, _, s => s
  | n + 1, k, s =>
    let s := if (hex >>> k) &&& 0x01 ≠ 0 then
        { s with buffer := draw_pixel line_length s.buffer s.x s.y c }
      else s
    draw_text_bits line_length c hex n (k + 1) { s with x := s.x + 1 }

/-- The `j` loop of `draw_text` (library.c 218-232): `n` iterations remain; each
reads `iso_font[fontIdx - j]`, runs the eight-step `k` loop, puts `x` back to
`constX` and moves `y` one row up.  `iso_font` is the table of `iso_font.h`, taken
as the byte found at each index. -/
def draw_text_rows (line_length : Nat) (iso_font : Int → Nat) (c : Nat) (fontIdx : Int) :
    Nat → Nat → TextState → TextState
  | 0, _, s => s
  | n + 1, j, s =>
    let hex := iso_font (fontIdx - j)
    let s := { s with reads := s.reads ++ [fontIdx - j] }
    let s := draw_text_bits line_length c hex 8 0 s
    let s := { s with x := s.constX }
    let s := { s with y := s.y - 1 }
    draw_text_rows line_length iso_font c fontIdx n (j + 1) s

/-- The `i` loop of `draw_text` (library.c 214-237) over the characters
`text[i], text[i+1], ...`; a character equal to `0`, or the end of the list (the
terminating NUL of the C string), stops it. -/
def draw_text_chars (line_length : Nat) (iso_font : Int → Nat) (c : Nat) (constY : Int) :
    List Int → TextState → TextState
  | [], s => s
  | letter :: rest, s =>
    if letter = 0 then s
    else
      let fontIdx := (letter * 16) + 16
      let s := draw_text_rows line_length iso_font c fontIdx 16 0 s
      let s := { s with x := s.x + 8 }
      let s := { s with constX := s.x }
      let s := { s with y := constY }
      draw_text_chars line_length iso_font c constY rest s

/-- State of `draw_text` before its first character: `constX = x`, nothing read. -/
def draw_text_init (buffer : Buffer) (x y : Int) : TextState :=
  { x := x, y := y, constX := x, buffer := buffer, reads := [] }

/-- The indices at which `draw_text` reads `iso_font`, in order; they do not
depend on the table's contents, the surface, the cursor or the colour. -/
def draw_text_reads (text : List Int) : List Int :=
  (draw_text_chars 0 (fun _ => 0) 0 0 text (draw_text_init (fun _ => 0) 0 0)).reads

/-! ## Terminal mode and the process -/

/-- `ICANON` of `<termios.h>` on Linux (octal `0000002`). -/
def ICANON : Nat := 0x2

/-- `ECHO` of `<termios.h>` on Linux (octal `0000010`). -/
def ECHO : Nat := 0x8

/-- `~flag` converted to the 32-bit unsigned `tcflag_t` of `c_lflag`. -/
def lflag_not (flag : Nat) : Nat := 4294967295 - flag

/-- Results of the three system calls of one `keypress_switch` call: `true` when
the call did not return `-1`. -/
structure TtyCalls where
  open_ok : Bool
  tcgets_ok : Bool
  tcsets_ok : Bool

/-- The process as far as the terminal is concerned: still running, or ended by
`_exit` or by the return of `main` with a status; `lflag` is the `c_lflag` word of
the controlling terminal at that moment. -/
inductive Proc where
  | running (lflag : Nat)
  | exited (status : Int) (lflag : Nat)
  deriving DecidableEq

/-- Sequencing: a process that has exited runs nothing further. -/
def Proc.bind (p : Proc) (next : Nat → Proc) : Proc :=
  match p with
  | Proc.running lflag => next lflag
  | Proc.exited status lflag => Proc.exited status lflag

/-- `keypress_switch` (library.c 86-116). -/
def keypress_switch (button : Int) (sys : TtyCalls) (lflag : Nat) : Proc :=
  if sys.open_ok = false then Proc.exited 1 lflag
  else if sys.tcgets_ok = false then Proc.exited 1 lflag
  else
    let term := lflag
    let term :=
      if button = 0 then (term &&& lflag_not ICANON) &&& lflag_not ECHO
      else if button = 1 then (term ||| ICANON) ||| ECHO
      else term
    if sys.tcsets_ok = false then Proc.exited 1 lflag
    else Proc.running term

/-- Results of the system calls of `init_graphics` before it calls
`keypress_switch`. -/
structure FbCalls where
  open_ok : Bool
  vscreeninfo_ok : Bool
  fscreeninfo_ok : Bool
  mmap_ok : Bool

/-- `init_graphics` (library.c 34-58), on the terminal and the exit status. -/
def init_graphics (fb : FbCalls) (tty : TtyCalls) (lflag : Nat) : Proc :=
  if fb.open_ok = false then Proc.exited 1 lflag
  else if fb.vscreeninfo_ok = false ∨ fb.fscreeninfo_ok = false then Proc.exited 1 lflag
  else if fb.mmap_ok = false then Proc.exited 1 lflag
  else keypress_switch 0 tty lflag

/-- `exit_graphics` (library.c 66-79), on the terminal and the exit status;
`munmap` and `close` follow `keypress_switch(1)` and touch neither. -/
def exit_graphics (tty : TtyCalls) (lflag : Nat) : Proc :=
  keypress_switch 1 tty lflag

/-- `sleep_ms` (library.c 136-146): `nanosleep_ok` is `false` when `nanosleep`
returned `-1`. -/
def sleep_ms (_ms : Int) (nanosleep_ok : Bool) (lflag : Nat) : Proc :=
  if nanosleep_ok = false then Proc.exited 1 lflag else Proc.running lflag

/-- Results of the system calls one run of `main` makes; `frames` lists, for each
turn of the `do ... while` loop, the key `getkey` returned and the result of the
`nanosleep` of that turn. -/
structure MainCalls where
  fb : FbCalls
  raw : TtyCalls
  sleep1 : Bool
  sleep2 : Bool
  sleep3 : Bool
  frames : List (Int × Bool)
  restore : TtyCalls

/-- The `do ... while (key != 'q')` loop of `main` (driver.c 43-53).  `draw_rect`
and `getkey` neither touch the terminal flags nor exit.  When `frames` runs out
the process is still inside the loop. -/
def main_loop (after : Nat → Proc) : List (Int × Bool) → Nat → Proc
  | [], lflag => Proc.running lflag
  | (key, nanosleep_ok) :: rest, lflag =>
    (sleep_ms 30 nanosleep_ok lflag).bind fun lflag =>
      if key ≠ 113 then main_loop after rest lflag else after lflag

/-- `main` (driver.c 22-59), on the terminal and the exit status; `clear_screen`
and `draw_text` neither touch the terminal flags nor exit. -/
def main (calls : MainCalls) (lflag : Nat) : Proc :=
  (init_graphics calls.fb calls.raw lflag).bind fun lflag =>
  (sleep_ms 50 calls.sleep1 lflag).bind fun lflag =>
  (sleep_ms 50 calls.sleep2 lflag).bind fun lflag =>
  (sleep_ms 50 calls.sleep3 lflag).bind fun lflag =>
  main_loop (fun lflag => (exit_graphics calls.restore lflag).bind fun lflag =>
    Proc.exited 0 lflag) calls.frames lflag

/-! ## Predicates used to state what the drawing loops do -/

/-- The coordinates that pass the guard of `draw_pixel` (library.c 154). -/
def InWindow (x y : Int) : Prop := 0 ≤ x ∧ x ≤ 639 ∧ 0 ≤ y ∧ y ≤ 479

/-- `Paints c S b b'`: surface `b'` is surface `b` with the cells of `S` set to `c`. -/
def Paints (c : Nat) (S : Nat → Prop) (b b' : Buffer) : Prop :=
  ∀ p, (S p → b' p = c) ∧ (¬ S p → b' p = b p)

/-! ## Theorems -/

/-- A shifted value and a value below the shift have no common bit. -/
theorem or_shift_eq_add (a b n : Nat) (h : b < 2 ^ n) : (a <<< n) ||| b = a * 2 ^ n + b := by
  rw [Nat.shiftLeft_eq, Nat.mul_comm a, Nat.mul_add_lt_is_or h]

/-- C1. `pixel_color red green blue` is the 16-bit value with the low 5 bits of `red` in
bits 15..11, the low 6 bits of `green` in bits 10..5 and the low 5 bits of `blue` in bits
4..0, that is `(red mod 32) * 2048 + (green mod 64) * 32 + blue mod 32`, for all values of
the three `unsigned short` arguments (and so for all of `0..65535`); in particular
`pixel_color(0xFF, 0xFF, 0xFF) = 0xFFFF` and `pixel_color(0x20, 0, 0) = pixel_color(0, 0, 0)`. -/
theorem pixel_color_packs :
    (∀ red green blue : Nat,
      pixel_color red green blue = (red % 32) * 2048 + (green % 64) * 32 + blue % 32) ∧
    pixel_color 0xFF 0xFF 0xFF = 0xFFFF ∧
    pixel_color 0x20 0 0 = pixel_color 0x00 0 0 := by
  refine ⟨?_, by decide, by decide⟩
  intro red green blue
  have hr : red &&& 0x1f = red % 32 := Nat.and_pow_two_sub_one_eq_mod red 5
  have hg : green &&& 0x3f = green % 64 := Nat.and_pow_two_sub_one_eq_mod green 6
  have hb : blue &&& 0x1f = blue % 32 := Nat.and_pow_two_sub_one_eq_mod blue 5
  have r32 : red % 32 < 32 := Nat.mod_lt _ (by decide)
  have g64 : green % 64 < 64 := Nat.mod_lt _ (by decide)
  have b32 : blue % 32 < 32 := Nat.mod_lt _ (by decide)
  unfold pixel_color
  simp only [hr, hg, hb]
  have e1 : ((red % 32) <<< 11) % 65536 = (red % 32) * 2048 := by
    rw [Nat.shiftLeft_eq]; omega
  have e2 : ((green % 64) <<< 5) = (green % 64) * 32 := by
    rw [Nat.shiftLeft_eq]
  have e3 : ((blue % 32) <<< 0) = blue % 32 := by simp
  rw [e1, e2, e3]
  have e4 : (red % 32) * 2048 ||| (green % 64) * 32 = (red % 32) * 2048 + (green % 64) * 32 := by
    have := or_shift_eq_add (red % 32) ((green % 64) * 32) 11 (by norm_num; omega)
    rw [Nat.shiftLeft_eq] at this
    simpa using this
  rw [e4]
  have e5 : ((red % 32) * 2048 + (green % 64) * 32) % 65536
      = (red % 32) * 2048 + (green % 64) * 32 := by omega
  rw [e5]
  have e6 : ((red % 32) * 2048 + (green % 64) * 32) ||| blue % 32
      = (red % 32) * 2048 + (green % 64) * 32 + blue % 32 := by
    have := or_shift_eq_add ((red % 32) * 64 + (green % 64)) (blue % 32) 5 (by norm_num; omega)
    rw [Nat.shiftLeft_eq] at this
    have e : ((red % 32) * 64 + green % 64) * 2 ^ 5 = (red % 32) * 2048 + (green % 64) * 32 := by
      norm_num; omega
    rw [e] at this
    exact this
  rw [e6]
  omega

/-- Without wrap-around the index is `(line_length / 2) * y + x`. -/
theorem scale_eq (line_length : Nat) (x y : Int) (hx : 0 ≤ x) (hy : 0 ≤ y)
    (hfit : ((line_length / 2 : Nat) : Int) * y + x < 4294967296) :
    ((scale line_length x y : Nat) : Int) = ((line_length / 2 : Nat) : Int) * y + x := by
  unfold scale
  have h0 : 0 ≤ ((line_length / 2 : Nat) : Int) * y + x :=
    Int.add_nonneg (Int.mul_nonneg (Int.ofNat_nonneg _) hy) hx
  have e : ((16 : Nat) / 8) = 2 := by decide
  rw [e, Int.emod_eq_of_lt h0 hfit, Int.toNat_of_nonneg h0]

/-- Inside the window `draw_pixel` overwrites exactly the cell `scale`. -/
theorem draw_pixel_inside (line_length : Nat) (buffer : Buffer) (x y : Int) (c : Nat)
    (hx0 : 0 ≤ x) (hx : x ≤ 639) (hy0 : 0 ≤ y) (hy : y ≤ 479) (p : Nat) :
    draw_pixel line_length buffer x y c p
      = if p = scale line_length x y then c else buffer p := by
  unfold draw_pixel
  rw [if_pos ⟨hy, hx, hx0, hy0⟩]

/-- Outside the window `draw_pixel` writes nothing. -/
theorem draw_pixel_outside (line_length : Nat) (buffer : Buffer) (x y : Int) (c : Nat)
    (h : ¬ (0 ≤ x ∧ x ≤ 639 ∧ 0 ≤ y ∧ y ≤ 479)) :
    draw_pixel line_length buffer x y c = buffer := by
  unfold draw_pixel
  rw [if_neg]
  rintro ⟨h1, h2, h3, h4⟩
  exact h ⟨h3, h2, h4, h1⟩

/-- C2 as stated fails: on a device 1024 wide and 768 high with a stride of 2048 bytes the
coordinate `(700, 0)` is inside the device bounds, yet after `draw_pixel(700, 0, 1)` on a
surface of zeros the cell at index `0 * (2048 / 2) + 700` does not hold `1`, because the
guard of `draw_pixel` tests `x <= 639`, not the device width. -/
theorem draw_pixel_skips_column_700 :
    2048 ≥ 2 * 1024 ∧ (0 : Int) ≤ 700 ∧ (700 : Int) < 1024 ∧ (0 : Int) ≤ 0 ∧ (0 : Int) < 768 ∧
    draw_pixel 2048 (fun _ => 0) 700 0 1 ((0 : Int).toNat * (2048 / 2) + (700 : Int).toNat) ≠ 1 := by
  decide

/-- The index of a coordinate inside the device bounds lies inside the mapped surface and
is computed without wrap-around. -/
theorem index_in_device (width height yres_virtual line_length xn yn : Nat)
    (hstride : 2 * width ≤ line_length) (hvirt : height ≤ yres_virtual)
    (hfit : yres_virtual * line_length < 4294967296) (hx : xn < width) (hy : yn < height) :
    yn * (line_length / 2) + xn < size yres_virtual line_length / 2 := by
  have hsz : size yres_virtual line_length = yres_virtual * line_length := by
    unfold size
    exact Nat.mod_eq_of_lt hfit
  have h1 : (yn + 1) * (line_length / 2) ≤ height * (line_length / 2) :=
    Nat.mul_le_mul_right _ hy
  have h2 : height * (line_length / 2) ≤ yres_virtual * (line_length / 2) :=
    Nat.mul_le_mul_right _ hvirt
  have h3 : yres_virtual * (line_length / 2 * 2) ≤ yres_virtual * line_length :=
    Nat.mul_le_mul_left _ (Nat.div_mul_le_self _ _)
  have h4 : (yn + 1) * (line_length / 2) = yn * (line_length / 2) + line_length / 2 := by ring
  have h5 : yres_virtual * (line_length / 2 * 2) = yres_virtual * (line_length / 2) * 2 := by
    ring
  rw [hsz]
  omega

/-- C2, amended. For every device geometry (width, height, virtual height at least the
height, stride with `stride >= 2 * width`) whose surface length `virtual_height * stride`
is below `2^32` (so that the 32-bit arithmetic of `init_graphics` and `draw_pixel` does not
wrap), every `(x, y)` with `0 <= x < width` and `0 <= y < height` that also lies in the
fixed window of the guard of `draw_pixel`, `x <= 639` and `y <= 479`, and every pixel value
`c`: the pixel index `y * (stride / 2) + x` is inside the mapped surface of `size / 2`
cells, and after `draw_pixel(x, y, c)` the cell at that index holds `c`. -/
theorem draw_pixel_round_trip (width height yres_virtual line_length : Nat) (buffer : Buffer)
    (x y : Int) (c : Nat)
    (hstride : 2 * width ≤ line_length) (hvirt : height ≤ yres_virtual)
    (hfit : yres_virtual * line_length < 4294967296)
    (hx0 : 0 ≤ x) (hxw : x < width) (hy0 : 0 ≤ y) (hyh : y < height)
    (hx : x ≤ 639) (hy : y ≤ 479) :
    y.toNat * (line_length / 2) + x.toNat < size yres_virtual line_length / 2 ∧
    draw_pixel line_length buffer x y c (y.toNat * (line_length / 2) + x.toNat) = c := by
  rw [draw_pixel_inside line_length buffer x y c hx0 hx hy0 hy]
  obtain ⟨xn, rfl⟩ := Int.eq_ofNat_of_zero_le hx0
  obtain ⟨yn, rfl⟩ := Int.eq_ofNat_of_zero_le hy0
  simp only [Int.toNat_ofNat]
  have hin := index_in_device width height yres_virtual line_length xn yn hstride hvirt hfit
    (by exact_mod_cast hxw) (by exact_mod_cast hyh)
  have hlt : yn * (line_length / 2) + xn < 4294967296 := by
    have : size yres_virtual line_length < 4294967296 := by
      unfold size
      exact Nat.mod_lt _ (by decide)
    omega
  have hfit2 : ((line_length / 2 : Nat) : Int) * (yn : Int) + (xn : Int) < 4294967296 := by
    have : ((yn * (line_length / 2) + xn : Nat) : Int) < 4294967296 := by exact_mod_cast hlt
    simp only [Nat.cast_add, Nat.cast_mul] at this
    linarith
  have e := scale_eq line_length xn yn hx0 hy0 hfit2
  have : yn * (line_length / 2) + xn = scale line_length xn yn := by
    have : ((yn * (line_length / 2) + xn : Nat) : Int) = (scale line_length xn yn : Int) := by
      rw [e]
      simp only [Nat.cast_add, Nat.cast_mul]
      ring
    exact_mod_cast this
  exact ⟨hin, by rw [if_pos this]⟩

/-- C2, amended, at the last coordinate of a 640 x 480 device with a stride of 1280 bytes. -/
theorem draw_pixel_round_trip_witness :
    (479 : Int).toNat * (1280 / 2) + (639 : Int).toNat < size 480 1280 / 2 ∧
    draw_pixel 1280 (fun _ => 0) 639 479 8000
      ((479 : Int).toNat * (1280 / 2) + (639 : Int).toNat) = 8000 :=
  draw_pixel_round_trip 640 480 480 1280 (fun _ => 0) 639 479 8000 (by decide) (by decide)
    (by decide) (by decide) (by decide) (by decide) (by decide) (by decide) (by decide)

/-- C3 as stated fails: on a device 320 wide and 240 high with a stride of 640 bytes the
coordinate `(400, 100)` is outside the device bounds, yet `draw_pixel(400, 100, 1)` passes
the guard (`400 <= 639`, `100 <= 479`) and overwrites cell `32400`, which lies inside the
mapped surface of `240 * 640 / 2` cells and held `0` before. -/
theorem draw_pixel_writes_outside_320x240 :
    ¬ ((0 : Int) ≤ 400 ∧ (400 : Int) < 320 ∧ (0 : Int) ≤ 100 ∧ (100 : Int) < 240) ∧
    (fun _ => 0 : Buffer) 32400 = 0 ∧
    draw_pixel 640 (fun _ => 0) 400 100 1 32400 = 1 ∧
    32400 < size 240 640 / 2 := by
  decide

/-- C3, amended. For every stride, every surface, every pixel value `c` and every `(x, y)`
that is not in `[0, 640) x [0, 480)` (the fixed window of the guard, whatever the width and
height of the device), `draw_pixel(x, y, c)` leaves the whole surface unchanged. -/
theorem draw_pixel_no_write_outside_window (line_length : Nat) (buffer : Buffer) (x y : Int)
    (c : Nat) (h : ¬ (0 ≤ x ∧ x < 640 ∧ 0 ≤ y ∧ y < 480)) :
    draw_pixel line_length buffer x y c = buffer := by
  apply draw_pixel_outside
  intro h'
  apply h
  omega

/-- C3, amended, at the first column right of the window. -/
theorem draw_pixel_no_write_outside_window_witness :
    draw_pixel 1280 (fun _ => 7) 640 0 1 = (fun _ => 7) :=
  draw_pixel_no_write_outside_window 1280 (fun _ => 7) 640 0 1 (by decide)

/-- On a surface of at least 480 rows of at least 640 pixels, shorter than `2^32` bytes,
the index of a guarded coordinate does not wrap and lies inside the surface. -/
theorem scale_small (line_length yres_virtual : Nat) (hs : 2 * 640 ≤ line_length)
    (hv : 480 ≤ yres_virtual) (hfit : yres_virtual * line_length < 4294967296)
    (x y : Int) (hx0 : 0 ≤ x) (hx : x ≤ 639) (hy0 : 0 ≤ y) (hy : y ≤ 479) :
    ((scale line_length x y : Nat) : Int) = ((line_length / 2 : Nat) : Int) * y + x ∧
    ((line_length / 2 : Nat) : Int) * y + x < ((yres_virtual * line_length / 2 : Nat) : Int) := by
  have h640 : 640 ≤ line_length / 2 := by omega
  have hcells : 480 * (line_length / 2) ≤ yres_virtual * line_length / 2 := by
    have h1 : 480 * line_length ≤ yres_virtual * line_length := Nat.mul_le_mul_right _ hv
    omega
  have hrow : ((line_length / 2 : Nat) : Int) * y ≤ ((line_length / 2 : Nat) : Int) * 479 :=
    Int.mul_le_mul_of_nonneg_left hy (Int.ofNat_nonneg _)
  have hcells' : (480 : Int) * ((line_length / 2 : Nat) : Int)
      ≤ ((yres_virtual * line_length / 2 : Nat) : Int) := by exact_mod_cast hcells
  have h640' : (640 : Int) ≤ ((line_length / 2 : Nat) : Int) := by exact_mod_cast h640
  have hlt : ((line_length / 2 : Nat) : Int) * y + x
      < ((yres_virtual * line_length / 2 : Nat) : Int) := by linarith
  have hb : ((yres_virtual * line_length / 2 : Nat) : Int) < 4294967296 := by
    have : yres_virtual * line_length / 2 < 4294967296 := by omega
    exact_mod_cast this
  exact ⟨scale_eq line_length x y hx0 hy0 (by linarith), hlt⟩

/-- C10 as stated fails: the stride 4294967294 and the virtual height 480 satisfy
`stride >= 2 * 640` and `virtual height >= 480`, but the 32-bit index computation wraps:
the guarded coordinates `(2, 3)` and `(0, 1)` get the same index 2147483647, so
`draw_pixel(2, 3, 1)` changes the cell of `(0, 1)`, and that index is not below the number
of cells in the mapped surface, `size / 2` with the 32-bit `size` of `init_graphics`. -/
theorem scale_wraps_at_huge_stride :
    2 * 640 ≤ 4294967294 ∧ 480 ≤ 480 ∧
    scale 4294967294 2 3 = scale 4294967294 0 1 ∧
    draw_pixel 4294967294 (fun _ => 0) 2 3 1 (scale 4294967294 0 1) ≠ 0 ∧
    ¬ scale 4294967294 0 1 < size 480 4294967294 / 2 := by
  decide

/-- C10, amended. For every geometry with `stride >= 2 * 640`, `virtual height >= 480` and
`virtual_height * stride < 2^32` (the byte length of the surface fits the 32-bit arithmetic
of `init_graphics` and `draw_pixel`): (1) for every `(x, y)` passing the guard
`0 <= x <= 639`, `0 <= y <= 479` the index `draw_pixel` computes is strictly less than the
number of 16-bit cells in the mapped surface, `size / 2`; (2) the index is injective on those
coordinates, so `draw_pixel(x, y, c)` changes no cell of another guarded coordinate. -/
theorem scale_in_surface_and_injective (line_length yres_virtual : Nat)
    (hs : 2 * 640 ≤ line_length) (hv : 480 ≤ yres_virtual)
    (hfit : yres_virtual * line_length < 4294967296) :
    (∀ x y : Int, 0 ≤ x → x ≤ 639 → 0 ≤ y → y ≤ 479 →
      scale line_length x y < size yres_virtual line_length / 2) ∧
    (∀ x y x' y' : Int, 0 ≤ x → x ≤ 639 → 0 ≤ y → y ≤ 479 →
      0 ≤ x' → x' ≤ 639 → 0 ≤ y' → y' ≤ 479 →
      scale line_length x y = scale line_length x' y' → x = x' ∧ y = y') ∧
    (∀ (buffer : Buffer) (c : Nat) (x y x' y' : Int), 0 ≤ x → x ≤ 639 → 0 ≤ y → y ≤ 479 →
      0 ≤ x' → x' ≤ 639 → 0 ≤ y' → y' ≤ 479 → (x', y') ≠ (x, y) →
      draw_pixel line_length buffer x y c (scale line_length x' y')
        = buffer (scale line_length x' y')) := by
  have hinj : ∀ x y x' y' : Int, 0 ≤ x → x ≤ 639 → 0 ≤ y → y ≤ 479 →
      0 ≤ x' → x' ≤ 639 → 0 ≤ y' → y' ≤ 479 →
      scale line_length x y = scale line_length x' y' → x = x' ∧ y = y' := by
    intro x y x' y' hx0 hx hy0 hy hx0' hx' hy0' hy' he
    have e1 := (scale_small line_length yres_virtual hs hv hfit x y hx0 hx hy0 hy).1
    have e2 := (scale_small line_length yres_virtual hs hv hfit x' y' hx0' hx' hy0' hy').1
    have h640 : (640 : Int) ≤ ((line_length / 2 : Nat) : Int) := by
      have : 640 ≤ line_length / 2 := by omega
      exact_mod_cast this
    have he' : ((line_length / 2 : Nat) : Int) * y + x
        = ((line_length / 2 : Nat) : Int) * y' + x' := by
      rw [← e1, ← e2, he]
    have hyy : y = y' := by
      rcases lt_trichotomy y y' with h | h | h
      · exfalso
        have : ((line_length / 2 : Nat) : Int) * (y + 1) ≤ ((line_length / 2 : Nat) : Int) * y' :=
          Int.mul_le_mul_of_nonneg_left (by omega) (Int.ofNat_nonneg _)
        nlinarith
      · exact h
      · exfalso
        have : ((line_length / 2 : Nat) : Int) * (y' + 1) ≤ ((line_length / 2 : Nat) : Int) * y :=
          Int.mul_le_mul_of_nonneg_left (by omega) (Int.ofNat_nonneg _)
        nlinarith
    subst hyy
    exact ⟨by linarith, rfl⟩
  refine ⟨?_, hinj, ?_⟩
  · intro x y hx0 hx hy0 hy
    obtain ⟨e, hlt⟩ := scale_small line_length yres_virtual hs hv hfit x y hx0 hx hy0 hy
    have hsz : size yres_virtual line_length = yres_virtual * line_length := by
      unfold size
      exact Nat.mod_eq_of_lt hfit
    rw [hsz]
    rw [← e] at hlt
    exact_mod_cast hlt
  · intro buffer c x y x' y' hx0 hx hy0 hy hx0' hx' hy0' hy' hne
    rw [draw_pixel_inside line_length buffer x y c hx0 hx hy0 hy]
    rw [if_neg]
    intro he
    obtain ⟨h1, h2⟩ := hinj x' y' x y hx0' hx' hy0' hy' hx0 hx hy0 hy he
    exact hne (by rw [h1, h2])

/-- C10, amended, on the 640 x 480 geometry with a stride of 1280 bytes. -/
theorem scale_in_surface_and_injective_witness :
    scale 1280 639 479 < size 480 1280 / 2 ∧
    draw_pixel 1280 (fun _ => 0) 0 1 9 (scale 1280 639 0) = (fun _ => 0 : Buffer) (scale 1280 639 0) :=
  have h := scale_in_surface_and_injective 1280 480 (by decide) (by decide) (by decide)
  ⟨h.1 639 479 (by decide) (by decide) (by decide) (by decide),
   h.2.2 (fun _ => 0) 9 0 1 639 0 (by decide) (by decide) (by decide) (by decide) (by decide)
     (by decide) (by decide) (by decide) (by decide)⟩

/-- Writing nothing paints the empty set. -/
theorem paints_none (c : Nat) (b : Buffer) : Paints c (fun _ => False) b b :=
  fun _ => ⟨fun h => h.elim, fun _ => rfl⟩

/-- The painted set may be replaced by an equivalent description. -/
theorem paints_congr {c : Nat} {S T : Nat → Prop} {b b' : Buffer} (h : Paints c S b b')
    (hST : ∀ p, S p ↔ T p) : Paints c T b b' :=
  fun p => ⟨fun ht => (h p).1 ((hST p).2 ht), fun hnt => (h p).2 (fun hs => hnt ((hST p).1 hs))⟩

/-- Painting `S` and then `T` in the same colour paints their union. -/
theorem paints_then {c : Nat} {S T : Nat → Prop} {b b1 b2 : Buffer} (h1 : Paints c S b b1)
    (h2 : Paints c T b1 b2) : Paints c (fun p => S p ∨ T p) b b2 := by
  intro p
  by_cases ht : T p
  · exact ⟨fun _ => (h2 p).1 ht, fun hn => (hn (Or.inr ht)).elim⟩
  · constructor
    · rintro (hs | h)
      · rw [(h2 p).2 ht]; exact (h1 p).1 hs
      · exact (ht h).elim
    · intro hn
      rw [(h2 p).2 ht]
      exact (h1 p).2 (fun hs => hn (Or.inl hs))

/-- `draw_pixel` paints the cell of its coordinate when the coordinate is in the window. -/
theorem paints_draw_pixel (line_length : Nat) (b : Buffer) (x y : Int) (c : Nat) :
    Paints c (fun p => InWindow x y ∧ p = scale line_length x y) b
      (draw_pixel line_length b x y c) := by
  intro p
  by_cases hw : InWindow x y
  · obtain ⟨h1, h2, h3, h4⟩ := hw
    rw [draw_pixel_inside line_length b x y c h1 h2 h3 h4]
    constructor
    · rintro ⟨_, hp⟩; rw [if_pos hp]
    · intro hn
      rw [if_neg]
      intro hp
      exact hn ⟨⟨h1, h2, h3, h4⟩, hp⟩
  · rw [draw_pixel_outside line_length b x y c hw]
    exact ⟨fun h => (hw h.1).elim, fun _ => rfl⟩

/-- The inner loop of `draw_rect` paints the window cells of one column segment. -/
theorem paints_draw_rect_column (line_length : Nat) (x : Int) (c : Nat) :
    ∀ (n : Nat) (y : Int) (b : Buffer),
      Paints c (fun p => ∃ d : Nat, d < n ∧ InWindow x (y + d) ∧ p = scale line_length x (y + d))
        b (draw_rect_column line_length x c n y b)
  | 0, y, b => paints_congr (paints_none c b) (fun p => ⟨fun h => h.elim, fun ⟨_, h, _⟩ => by omega⟩)
  | n + 1, y, b => by
    have h1 := paints_draw_pixel line_length b x y c
    have h2 := paints_draw_rect_column line_length x c n (y + 1)
      (draw_pixel line_length b x y c)
    refine paints_congr (paints_then h1 h2) (fun p => ?_)
    constructor
    · rintro (⟨hw, hp⟩ | ⟨d, hd, hw, hp⟩)
      · exact ⟨0, by omega, by simpa using hw, by simpa using hp⟩
      · refine ⟨d + 1, by omega, ?_, ?_⟩
        · have e : y + ((d + 1 : Nat) : Int) = y + 1 + d := by push_cast; ring
          rw [e]; exact hw
        · have e : y + ((d + 1 : Nat) : Int) = y + 1 + d := by push_cast; ring
          rw [e]; exact hp
    · rintro ⟨d, hd, hw, hp⟩
      cases d with
      | zero => exact Or.inl ⟨by simpa using hw, by simpa using hp⟩
      | succ d =>
        have e : y + ((d + 1 : Nat) : Int) = y + 1 + d := by push_cast; ring
        rw [e] at hw hp
        exact Or.inr ⟨d, by omega, hw, hp⟩

/-- The outer loop of `draw_rect` paints the window cells of its column segments. -/
theorem paints_draw_rect_columns (line_length : Nat) (y1 height : Int) (c : Nat) :
    ∀ (n : Nat) (x : Int) (b : Buffer),
      Paints c (fun p => ∃ e : Nat, e < n ∧ ∃ d : Nat, d < (int32 (y1 + height) - y1).toNat ∧
          InWindow (x + e) (y1 + d) ∧ p = scale line_length (x + e) (y1 + d))
        b (draw_rect_columns line_length y1 height c n x b)
  | 0, x, b => paints_congr (paints_none c b) (fun p => ⟨fun h => h.elim, fun ⟨_, h, _⟩ => by omega⟩)
  | n + 1, x, b => by
    have h1 := paints_draw_rect_column line_length x c (int32 (y1 + height) - y1).toNat y1 b
    have h2 := paints_draw_rect_columns line_length y1 height c n (x + 1)
      (draw_rect_column line_length x c (int32 (y1 + height) - y1).toNat y1 b)
    refine paints_congr (paints_then h1 h2) (fun p => ?_)
    constructor
    · rintro (⟨d, hd, hw, hp⟩ | ⟨e, he, d, hd, hw, hp⟩)
      · exact ⟨0, by omega, d, hd, by simpa using hw, by simpa using hp⟩
      · have e' : x + ((e + 1 : Nat) : Int) = x + 1 + e := by push_cast; ring
        exact ⟨e + 1, by omega, d, hd, by rw [e']; exact hw, by rw [e']; exact hp⟩
    · rintro ⟨e, he, d, hd, hw, hp⟩
      cases e with
      | zero => exact Or.inl ⟨d, hd, by simpa using hw, by simpa using hp⟩
      | succ e =>
        have e' : x + ((e + 1 : Nat) : Int) = x + 1 + e := by push_cast; ring
        rw [e'] at hw hp
        exact Or.inr ⟨e, by omega, d, hd, hw, hp⟩

/-- Where the sum `y1 + height` is not representable the loop bound is the wrapped sum:
`draw_rect(0, INT_MIN, 1, -1, c)` runs its inner loop up to `INT_MAX` and paints column 0
of the window, and `draw_rect(1, 0, INT_MAX, 1, c)` runs no iteration. -/
theorem draw_rect_wrapped_bounds (line_length : Nat) (buffer : Buffer) (c : Nat) (b : Int)
    (h0 : 0 ≤ b) (h1 : b ≤ 479) :
    draw_rect line_length buffer 0 (-2147483648) 1 (-1) c (scale line_length 0 b) = c ∧
    draw_rect line_length buffer 1 0 2147483647 1 c = buffer := by
  constructor
  · have key := paints_draw_rect_columns line_length (-2147483648) (-1) c
      (int32 (0 + 1) - 0).toNat 0 buffer
    unfold draw_rect
    refine (key _).1 ⟨0, by decide, (b + 2147483648).toNat, ?_, ?_, ?_⟩
    · have : int32 (-2147483648 + -1) = 2147483647 := by decide
      rw [this]
      omega
    · have : (-2147483648 : Int) + ((b + 2147483648).toNat : Int) = b := by omega
      rw [this]
      exact ⟨by decide, by decide, h0, h1⟩
    · have : (-2147483648 : Int) + ((b + 2147483648).toNat : Int) = b := by omega
      rw [this]
      simp
  · have : (int32 (1 + 2147483647) - 1).toNat = 0 := by decide
    unfold draw_rect
    rw [this]
    rfl

/-- A representable sum is stored as it is. -/
theorem int32_eq (v : Int) (h : IsInt v) : int32 v = v := by
  obtain ⟨h1, h2⟩ := h
  unfold int32
  omega

/-- When the sums `x1 + width` and `y1 + height` are representable, `draw_rect` paints
the cells of the rectangle's coordinates that lie in the window. -/
theorem paints_draw_rect (line_length : Nat) (b : Buffer) (x1 y1 width height : Int) (c : Nat)
    (hxw : IsInt (x1 + width)) (hyh : IsInt (y1 + height)) :
    Paints c (fun p => ∃ x y : Int, x1 ≤ x ∧ x < x1 + width ∧ y1 ≤ y ∧ y < y1 + height ∧
        InWindow x y ∧ p = scale line_length x y)
      b (draw_rect line_length b x1 y1 width height c) := by
  unfold draw_rect
  refine paints_congr (paints_draw_rect_columns line_length y1 height c _ x1 b) (fun p => ?_)
  rw [int32_eq _ hxw, int32_eq _ hyh]
  constructor
  · rintro ⟨e, he, d, hd, hw, hp⟩
    exact ⟨x1 + e, y1 + d, by omega, by omega, by omega, by omega, hw, hp⟩
  · rintro ⟨x, y, h1, h2, h3, h4, hw, hp⟩
    refine ⟨(x - x1).toNat, by omega, (y - y1).toNat, by omega, ?_, ?_⟩
    · have ex : x1 + ((x - x1).toNat : Int) = x := by omega
      have ey : y1 + ((y - y1).toNat : Int) = y := by omega
      rw [ex, ey]; exact hw
    · have ex : x1 + ((x - x1).toNat : Int) = x := by omega
      have ey : y1 + ((y - y1).toNat : Int) = y := by omega
      rw [ex, ey]; exact hp

/-- On a surface of at least 480 rows of at least 640 pixels, shorter than `2^32` bytes,
two guarded coordinates with the same cell are the same coordinate. -/
theorem scale_injective (line_length yres_virtual : Nat) (hs : 2 * 640 ≤ line_length)
    (hv : 480 ≤ yres_virtual) (hfit : yres_virtual * line_length < 4294967296)
    (a b a2 b2 : Int) (h5 : 0 ≤ a) (h6 : a ≤ 639) (h7 : 0 ≤ b) (h8 : b ≤ 479)
    (g5 : 0 ≤ a2) (g6 : a2 ≤ 639) (g7 : 0 ≤ b2) (g8 : b2 ≤ 479)
    (he : scale line_length a2 b2 = scale line_length a b) : a2 = a ∧ b2 = b := by
  have e1 := (scale_small line_length yres_virtual hs hv hfit a b h5 h6 h7 h8).1
  have e2 := (scale_small line_length yres_virtual hs hv hfit a2 b2 g5 g6 g7 g8).1
  have h640 : (640 : Int) ≤ ((line_length / 2 : Nat) : Int) := by
    have : 640 ≤ line_length / 2 := by omega
    exact_mod_cast this
  have hee : ((line_length / 2 : Nat) : Int) * b2 + a2
      = ((line_length / 2 : Nat) : Int) * b + a := by
    rw [← e1, ← e2, he]
  have hbb : b2 = b := by
    rcases lt_trichotomy b2 b with hlt | heq | hlt
    · exfalso
      have : ((line_length / 2 : Nat) : Int) * (b2 + 1) ≤ ((line_length / 2 : Nat) : Int) * b :=
        Int.mul_le_mul_of_nonneg_left (by omega) (Int.ofNat_nonneg _)
      nlinarith
    · exact heq
    · exfalso
      have : ((line_length / 2 : Nat) : Int) * (b + 1) ≤ ((line_length / 2 : Nat) : Int) * b2 :=
        Int.mul_le_mul_of_nonneg_left (by omega) (Int.ofNat_nonneg _)
      nlinarith
  subst hbb
  exact ⟨by linarith, rfl⟩

/-- On a surface of at least 480 rows of at least 640 pixels, shorter than `2^32` bytes,
the cell of a guarded coordinate lies inside the mapped surface. -/
theorem scale_lt_size (line_length yres_virtual : Nat) (hs : 2 * 640 ≤ line_length)
    (hv : 480 ≤ yres_virtual) (hfit : yres_virtual * line_length < 4294967296)
    (x y : Int) (hx0 : 0 ≤ x) (hx : x ≤ 639) (hy0 : 0 ≤ y) (hy : y ≤ 479) :
    scale line_length x y < size yres_virtual line_length / 2 := by
  obtain ⟨e, hlt⟩ := scale_small line_length yres_virtual hs hv hfit x y hx0 hx hy0 hy
  have hsz : size yres_virtual line_length = yres_virtual * line_length := by
    unfold size
    exact Nat.mod_eq_of_lt hfit
  rw [hsz]
  rw [← e] at hlt
  exact_mod_cast hlt

/-- C4 as stated fails: `(641, 0)` is a coordinate of `[638, 638 + 5) x [0, 0 + 1)`, but
after `draw_rect(638, 0, 5, 1, 7)` on a surface of zeros with a stride of 2048 bytes (a
device 1024 wide and 768 high, in whose mapped surface cell 641 lies) the cell of
`(641, 0)`, index `0 * (2048 / 2) + 641`, does not hold `7`: `draw_rect` draws through
`draw_pixel`, which skips the columns right of 639. -/
theorem draw_rect_clips_at_column_640 :
    (638 : Int) ≤ 641 ∧ (641 : Int) < 638 + 5 ∧ (0 : Int) ≤ 0 ∧ (0 : Int) < 0 + 1 ∧
    (0 : Int).toNat * (2048 / 2) + (641 : Int).toNat < size 768 2048 / 2 ∧
    draw_rect 2048 (fun _ => 0) 638 0 5 1 7 ((0 : Int).toNat * (2048 / 2) + (641 : Int).toNat) ≠ 7 := by
  decide

/-- C4, amended. On every surface that holds the window of `draw_pixel` (stride at least
`2 * 640`, virtual height at least 480, length `virtual_height * stride` below `2^32`), for
all `int` arguments `x, y, w, h` whose sums `x + w` and `y + h` are representable as `int`,
every colour `c` and every prior surface contents, `draw_rect(x, y, w, h, c)` writes exactly
the coordinates of `[x, x+w) x [y, y+h)` that lie in the window `0..639 x 0..479`:
afterwards the cell of each of those coordinates, which lies inside the mapped surface,
holds `c` whatever it held before; the pixel of every other window coordinate, and every
cell that belongs to no written coordinate, is unchanged; and when `w <= 0` or `h <= 0`
the surface is unchanged. After `draw_rect(10,10,5,5,0)` then `draw_rect(10,10,5,5,8000)`
the pixel at `(12,12)` is `8000`. -/
theorem draw_rect_writes_clipped_rectangle (line_length yres_virtual : Nat) (buffer : Buffer)
    (x y w h : Int) (c : Nat)
    (hs : 2 * 640 ≤ line_length) (hv : 480 ≤ yres_virtual)
    (hfit : yres_virtual * line_length < 4294967296)
    (_hx : IsInt x) (_hy : IsInt y) (_hw : IsInt w) (_hh : IsInt h)
    (hxw : IsInt (x + w)) (hyh : IsInt (y + h)) :
    (∀ a b : Int, x ≤ a → a < x + w → y ≤ b → b < y + h →
      0 ≤ a → a ≤ 639 → 0 ≤ b → b ≤ 479 →
      scale line_length a b < size yres_virtual line_length / 2 ∧
      draw_rect line_length buffer x y w h c (scale line_length a b) = c) ∧
    (∀ a b : Int, 0 ≤ a → a ≤ 639 → 0 ≤ b → b ≤ 479 →
      ¬ (x ≤ a ∧ a < x + w ∧ y ≤ b ∧ b < y + h) →
      draw_rect line_length buffer x y w h c (scale line_length a b)
        = buffer (scale line_length a b)) ∧
    (∀ p : Nat,
      (∀ a b : Int, x ≤ a → a < x + w → y ≤ b → b < y + h →
        0 ≤ a → a ≤ 639 → 0 ≤ b → b ≤ 479 → scale line_length a b ≠ p) →
      draw_rect line_length buffer x y w h c p = buffer p) ∧
    (w ≤ 0 ∨ h ≤ 0 → draw_rect line_length buffer x y w h c = buffer) ∧
    draw_rect line_length (draw_rect line_length buffer 10 10 5 5 0) 10 10 5 5 8000
      (scale line_length 12 12) = 8000 := by
  have key := paints_draw_rect line_length buffer x y w h c hxw hyh
  have unchanged : ∀ p : Nat,
      (∀ a b : Int, x ≤ a → a < x + w → y ≤ b → b < y + h →
        0 ≤ a → a ≤ 639 → 0 ≤ b → b ≤ 479 → scale line_length a b ≠ p) →
      draw_rect line_length buffer x y w h c p = buffer p := by
    intro p hp
    apply (key p).2
    rintro ⟨a, b, h1, h2, h3, h4, ⟨h5, h6, h7, h8⟩, he⟩
    exact hp a b h1 h2 h3 h4 h5 h6 h7 h8 he.symm
  refine ⟨?_, ?_, unchanged, ?_, ?_⟩
  · intro a b h1 h2 h3 h4 h5 h6 h7 h8
    exact ⟨scale_lt_size line_length yres_virtual hs hv hfit a b h5 h6 h7 h8,
      (key _).1 ⟨a, b, h1, h2, h3, h4, ⟨h5, h6, h7, h8⟩, rfl⟩⟩
  · intro a b h5 h6 h7 h8 hout
    apply unchanged
    intro a2 b2 h1 h2 h3 h4 g5 g6 g7 g8 he
    obtain ⟨haa, hbb⟩ := scale_injective line_length yres_virtual hs hv hfit a b a2 b2
      h5 h6 h7 h8 g5 g6 g7 g8 he
    subst haa; subst hbb
    exact hout ⟨h1, h2, h3, h4⟩
  · intro hwh
    funext p
    apply unchanged
    intro a b h1 h2 h3 h4
    omega
  · exact ((paints_draw_rect line_length (draw_rect line_length buffer 10 10 5 5 0)
      10 10 5 5 8000 (by unfold IsInt; decide) (by unfold IsInt; decide)) _).1
      ⟨12, 12, by decide, by decide, by decide, by decide,
        ⟨by decide, by decide, by decide, by decide⟩, rfl⟩

/-- C4, amended, on a rectangle that overlaps the lower right corner of the window of a
640 x 480 surface, and on a rectangle of width zero. -/
theorem draw_rect_writes_clipped_rectangle_witness :
    (scale 1280 639 479 < size 480 1280 / 2 ∧
      draw_rect 1280 (fun _ => 3) 638 478 5 5 7 (scale 1280 639 479) = 7) ∧
    draw_rect 1280 (fun _ => 3) 638 478 5 5 7 (scale 1280 637 479)
      = (fun _ => 3 : Buffer) (scale 1280 637 479) ∧
    draw_rect 1280 (fun _ => 3) 638 478 0 5 7 = (fun _ => 3) :=
  have h := draw_rect_writes_clipped_rectangle 1280 480 (fun _ => 3) 638 478 5 5 7
    (by decide) (by decide) (by decide) (by unfold IsInt; decide) (by unfold IsInt; decide)
    (by unfold IsInt; decide) (by unfold IsInt; decide) (by unfold IsInt; decide)
    (by unfold IsInt; decide)
  have h0 := draw_rect_writes_clipped_rectangle 1280 480 (fun _ => 3) 638 478 0 5 7
    (by decide) (by decide) (by decide) (by unfold IsInt; decide) (by unfold IsInt; decide)
    (by unfold IsInt; decide) (by unfold IsInt; decide) (by unfold IsInt; decide)
    (by unfold IsInt; decide)
  ⟨h.1 639 479 (by decide) (by decide) (by decide) (by decide) (by decide) (by decide)
      (by decide) (by decide),
   h.2.1 637 479 (by decide) (by decide) (by decide) (by decide) (by decide),
   h0.2.2.2.1 (Or.inl (by decide))⟩

/-- C8, the code at the failing inputs. For the one-character text of code 255 `draw_text`
reads `iso_font` at the indices 4096 down to 4081, and 4096 is not inside a table of
`256 * 16` bytes; for the code -1 (the same byte where `char` is signed) it reads the
indices 0 down to -15. -/
theorem draw_text_reads_past_table :
    draw_text_reads [255]
      = [4096, 4095, 4094, 4093, 4092, 4091, 4090, 4089, 4088, 4087, 4086, 4085, 4084, 4083,
        4082, 4081] ∧
    ¬ ((4096 : Int) < 256 * 16) ∧
    draw_text_reads [-1]
      = [0, -1, -2, -3, -4, -5, -6, -7, -8, -9, -10, -11, -12, -13, -14, -15] := by
  decide

/-- The `k` loop reads nothing from `iso_font`. -/
theorem draw_text_bits_reads (line_length c hex : Nat) :
    ∀ (n k : Nat) (s : TextState), (draw_text_bits line_length c hex n k s).reads = s.reads
  | 0, _, _ => rfl
  | n + 1, k, s => by
    by_cases hbit : (hex >>> k) &&& 0x01 ≠ 0
    · simp only [draw_text_bits, if_pos hbit]
      rw [draw_text_bits_reads line_length c hex n (k + 1)]
    · simp only [draw_text_bits, if_neg hbit]
      rw [draw_text_bits_reads line_length c hex n (k + 1)]

/-- The `j` loop appends the same indices whatever the table, the surface, the cursor and
the colour are. -/
theorem draw_text_rows_reads_eq (l1 l2 : Nat) (f1 f2 : Int → Nat) (c1 c2 : Nat) (fontIdx : Int) :
    ∀ (n j : Nat) (s t : TextState), s.reads = t.reads →
      (draw_text_rows l1 f1 c1 fontIdx n j s).reads = (draw_text_rows l2 f2 c2 fontIdx n j t).reads
  | 0, _, _, _, h => h
  | n + 1, j, s, t, h => by
    simp only [draw_text_rows]
    apply draw_text_rows_reads_eq l1 l2 f1 f2 c1 c2 fontIdx n (j + 1)
    simp only [draw_text_bits_reads, h]

/-- The `i` loop appends the same indices whatever the table, the surface, the cursor and
the colour are. -/
theorem draw_text_chars_reads_eq (l1 l2 : Nat) (f1 f2 : Int → Nat) (c1 c2 : Nat) (y1 y2 : Int) :
    ∀ (text : List Int) (s t : TextState), s.reads = t.reads →
      (draw_text_chars l1 f1 c1 y1 text s).reads = (draw_text_chars l2 f2 c2 y2 text t).reads
  | [], _, _, h => h
  | letter :: rest, s, t, h => by
    by_cases hl : letter = 0
    · simp only [draw_text_chars, if_pos hl]
      exact h
    · simp only [draw_text_chars, if_neg hl]
      apply draw_text_chars_reads_eq l1 l2 f1 f2 c1 c2 y1 y2 rest
      exact draw_text_rows_reads_eq l1 l2 f1 f2 c1 c2 (letter * 16 + 16) 16 0 s t h

/-- The lookups of every call of `draw_text` on a text are those of `draw_text_reads`. -/
theorem draw_text_reads_eq (line_length : Nat) (iso_font : Int → Nat) (buffer : Buffer)
    (x y : Int) (text : List Int) (c : Nat) :
    (draw_text_chars line_length iso_font c y text (draw_text_init buffer x y)).reads
      = draw_text_reads text :=
  draw_text_chars_reads_eq line_length 0 iso_font (fun _ => 0) c 0 y 0 text _ _ rfl

/-- Bits of `~ICANON` as a 32-bit word. -/
theorem testBit_not_ICANON (i : Nat) (hi : i < 32) :
    (lflag_not ICANON).testBit i = decide (i ≠ 1) := by
  interval_cases i <;> decide

/-- Bits of `~ECHO` as a 32-bit word. -/
theorem testBit_not_ECHO (i : Nat) (hi : i < 32) :
    (lflag_not ECHO).testBit i = decide (i ≠ 3) := by
  interval_cases i <;> decide

/-- `ICANON` is bit 1. -/
theorem testBit_ICANON (i : Nat) : ICANON.testBit i = decide (i = 1) := by
  have : ICANON = 2 ^ 1 := by decide
  rw [this, Nat.testBit_two_pow]
  by_cases h : i = 1 <;> simp [h, eq_comm]

/-- `ECHO` is bit 3. -/
theorem testBit_ECHO (i : Nat) : ECHO.testBit i = decide (i = 3) := by
  have : ECHO = 2 ^ 3 := by decide
  rw [this, Nat.testBit_two_pow]
  by_cases h : i = 3 <;> simp [h, eq_comm]

/-- Bits of the flag word after `keypress_switch(0)`. -/
theorem testBit_raw (lflag : Nat) (h32 : lflag < 4294967296) (i : Nat) :
    ((lflag &&& lflag_not ICANON) &&& lflag_not ECHO).testBit i
      = (lflag.testBit i && decide (i ≠ 1) && decide (i ≠ 3)) := by
  rw [Nat.testBit_and, Nat.testBit_and]
  by_cases hi : i < 32
  · rw [testBit_not_ICANON i hi, testBit_not_ECHO i hi]
  · have : lflag.testBit i = false := by
      apply Nat.testBit_lt_two_pow
      calc lflag < 2 ^ 32 := h32
        _ ≤ 2 ^ i := Nat.pow_le_pow_right (by decide) (by omega)
    simp [this]

/-- Bits of the flag word after `keypress_switch(0)` and then `keypress_switch(1)`. -/
theorem testBit_raw_then_restore (lflag : Nat) (h32 : lflag < 4294967296) (i : Nat) :
    ((((lflag &&& lflag_not ICANON) &&& lflag_not ECHO) ||| ICANON) ||| ECHO).testBit i
      = (lflag.testBit i || decide (i = 1) || decide (i = 3)) := by
  rw [Nat.testBit_or, Nat.testBit_or, testBit_raw lflag h32, testBit_ICANON, testBit_ECHO]
  by_cases h1 : i = 1 <;> by_cases h3 : i = 3 <;> simp [h1, h3]

/-- C7 as stated fails: from the flag word `0x8a33`, in which `ICANON` is set and `ECHO` is
clear, `keypress_switch(0)` then `keypress_switch(1)`, with every system call succeeding,
leave the flag word `0x8a3b`: the echo flag is now set, not as it was before. -/
theorem keypress_switch_turns_echo_on :
    (keypress_switch 0 ⟨true, true, true⟩ 0x8a33).bind (keypress_switch 1 ⟨true, true, true⟩)
      = Proc.running 0x8a3b ∧
    0x8a3b &&& ECHO ≠ 0x8a33 &&& ECHO := by
  decide

/-- C7, amended. For every initial 32-bit local-flag word, when the system calls of both
calls succeed, `keypress_switch(0)` followed by `keypress_switch(1)` leaves the process
running with `ICANON` and `ECHO` both set, whatever they were before, and every other bit
of the word as it was; so the two flags are identical to their prior values exactly when
both were set before `keypress_switch(0)`. -/
theorem keypress_switch_raw_then_restore (lflag : Nat) (sys0 sys1 : TtyCalls)
    (h32 : lflag < 4294967296)
    (h0 : sys0.open_ok = true ∧ sys0.tcgets_ok = true ∧ sys0.tcsets_ok = true)
    (h1 : sys1.open_ok = true ∧ sys1.tcgets_ok = true ∧ sys1.tcsets_ok = true) :
    ∃ after : Nat,
      (keypress_switch 0 sys0 lflag).bind (keypress_switch 1 sys1) = Proc.running after ∧
      after &&& ICANON = ICANON ∧ after &&& ECHO = ECHO ∧
      (∀ i : Nat, i ≠ 1 → i ≠ 3 → after.testBit i = lflag.testBit i) ∧
      ((after &&& ICANON = lflag &&& ICANON ∧ after &&& ECHO = lflag &&& ECHO) ↔
        (lflag &&& ICANON = ICANON ∧ lflag &&& ECHO = ECHO)) := by
  obtain ⟨a0, b0, c0⟩ := h0
  obtain ⟨a1, b1, c1⟩ := h1
  refine ⟨(((lflag &&& lflag_not ICANON) &&& lflag_not ECHO) ||| ICANON) ||| ECHO, ?_, ?_, ?_, ?_, ?_⟩
  · simp [keypress_switch, Proc.bind, a0, b0, c0, a1, b1, c1]
  · apply Nat.eq_of_testBit_eq
    intro i
    rw [Nat.testBit_and, testBit_raw_then_restore lflag h32, testBit_ICANON]
    by_cases h : i = 1 <;> simp [h]
  · apply Nat.eq_of_testBit_eq
    intro i
    rw [Nat.testBit_and, testBit_raw_then_restore lflag h32, testBit_ECHO]
    by_cases h : i = 3 <;> simp [h]
  · intro i hi1 hi3
    rw [testBit_raw_then_restore lflag h32]
    simp [hi1, hi3]
  · have hc : ((((lflag &&& lflag_not ICANON) &&& lflag_not ECHO) ||| ICANON) ||| ECHO)
        &&& ICANON = ICANON := by
      apply Nat.eq_of_testBit_eq
      intro i
      rw [Nat.testBit_and, testBit_raw_then_restore lflag h32, testBit_ICANON]
      by_cases h : i = 1 <;> simp [h]
    have he : ((((lflag &&& lflag_not ICANON) &&& lflag_not ECHO) ||| ICANON) ||| ECHO)
        &&& ECHO = ECHO := by
      apply Nat.eq_of_testBit_eq
      intro i
      rw [Nat.testBit_and, testBit_raw_then_restore lflag h32, testBit_ECHO]
      by_cases h : i = 3 <;> simp [h]
    rw [hc, he]
    constructor
    · rintro ⟨h, h'⟩; exact ⟨h.symm, h'.symm⟩
    · rintro ⟨h, h'⟩; exact ⟨h.symm, h'.symm⟩

/-- C7, amended, on the flag word `0x8a33`. -/
theorem keypress_switch_raw_then_restore_witness :
    ∃ after : Nat,
      (keypress_switch 0 ⟨true, true, true⟩ 0x8a33).bind (keypress_switch 1 ⟨true, true, true⟩)
        = Proc.running after ∧
      after &&& ICANON = ICANON ∧ after &&& ECHO = ECHO ∧
      (∀ i : Nat, i ≠ 1 → i ≠ 3 → after.testBit i = (0x8a33 : Nat).testBit i) ∧
      ((after &&& ICANON = 0x8a33 &&& ICANON ∧ after &&& ECHO = 0x8a33 &&& ECHO) ↔
        (0x8a33 &&& ICANON = ICANON ∧ 0x8a33 &&& ECHO = ECHO)) :=
  keypress_switch_raw_then_restore 0x8a33 ⟨true, true, true⟩ ⟨true, true, true⟩ (by decide)
    ⟨rfl, rfl, rfl⟩ ⟨rfl, rfl, rfl⟩

/-- A running process goes on with the next call. -/
theorem bind_running (lflag : Nat) (next : Nat → Proc) :
    (Proc.running lflag).bind next = next lflag := rfl

/-- An exited process stays as it is. -/
theorem bind_exited (status : Int) (lflag : Nat) (next : Nat → Proc) :
    (Proc.exited status lflag).bind next = Proc.exited status lflag := rfl

/-- After `keypress_switch(0)` both `ICANON` and `ECHO` are clear. -/
theorem raw_flags_clear (lflag : Nat) (h32 : lflag < 4294967296) :
    ((lflag &&& lflag_not ICANON) &&& lflag_not ECHO) &&& ICANON = 0 ∧
    ((lflag &&& lflag_not ICANON) &&& lflag_not ECHO) &&& ECHO = 0 := by
  constructor
  · apply Nat.eq_of_testBit_eq
    intro i
    rw [Nat.testBit_and, testBit_raw lflag h32, testBit_ICANON]
    by_cases h : i = 1 <;> simp [h]
  · apply Nat.eq_of_testBit_eq
    intro i
    rw [Nat.testBit_and, testBit_raw lflag h32, testBit_ECHO]
    by_cases h : i = 3 <;> simp [h]

/-- After `keypress_switch(1)` both `ICANON` and `ECHO` are set. -/
theorem restored_flags_set (lflag : Nat) :
    ((lflag ||| ICANON) ||| ECHO) &&& ICANON = ICANON ∧
    ((lflag ||| ICANON) ||| ECHO) &&& ECHO = ECHO := by
  constructor
  · apply Nat.eq_of_testBit_eq
    intro i
    rw [Nat.testBit_and, Nat.testBit_or, Nat.testBit_or, testBit_ICANON, testBit_ECHO]
    by_cases h : i = 1 <;> simp [h]
  · apply Nat.eq_of_testBit_eq
    intro i
    rw [Nat.testBit_and, Nat.testBit_or, Nat.testBit_or, testBit_ICANON, testBit_ECHO]
    by_cases h : i = 3 <;> simp [h]

/-- `keypress_switch` either ends the process with status 1, the flags untouched, or
writes the new flag word. -/
theorem keypress_switch_cases (button : Int) (sys : TtyCalls) (lflag : Nat) :
    keypress_switch button sys lflag = Proc.exited 1 lflag ∨
    keypress_switch button sys lflag = Proc.running
      (if button = 0 then (lflag &&& lflag_not ICANON) &&& lflag_not ECHO
       else if button = 1 then (lflag ||| ICANON) ||| ECHO else lflag) := by
  unfold keypress_switch
  by_cases h1 : sys.open_ok = false
  · left; rw [if_pos h1]
  · by_cases h2 : sys.tcgets_ok = false
    · left; rw [if_neg h1, if_pos h2]
    · by_cases h3 : sys.tcsets_ok = false
      · left; rw [if_neg h1, if_neg h2]; simp only [if_pos h3]
      · right; rw [if_neg h1, if_neg h2]; simp only [if_neg h3]

/-- `init_graphics` either ends the process with status 1, the flags untouched, or leaves
the terminal raw. -/
theorem init_graphics_cases (fb : FbCalls) (tty : TtyCalls) (lflag : Nat) :
    init_graphics fb tty lflag = Proc.exited 1 lflag ∨
    init_graphics fb tty lflag = Proc.running ((lflag &&& lflag_not ICANON) &&& lflag_not ECHO) := by
  unfold init_graphics
  by_cases h1 : fb.open_ok = false
  · left; rw [if_pos h1]
  · by_cases h2 : fb.vscreeninfo_ok = false ∨ fb.fscreeninfo_ok = false
    · left; rw [if_neg h1, if_pos h2]
    · by_cases h3 : fb.mmap_ok = false
      · left; rw [if_neg h1, if_neg h2, if_pos h3]
      · rw [if_neg h1, if_neg h2, if_neg h3]
        have := keypress_switch_cases 0 tty lflag
        simpa using this

/-- `sleep_ms` either ends the process with status 1 or returns; the flags are untouched. -/
theorem sleep_ms_cases (ms : Int) (ok : Bool) (lflag : Nat) :
    sleep_ms ms ok lflag = Proc.exited 1 lflag ∨ sleep_ms ms ok lflag = Proc.running lflag := by
  unfold sleep_ms
  by_cases h : ok = false
  · left; rw [if_pos h]
  · right; rw [if_neg h]

/-- The loop of `main` is still running, has ended the process with status 1, or has gone
on to the code after it; the flags are untouched. -/
theorem main_loop_cases (after : Nat → Proc) :
    ∀ (frames : List (Int × Bool)) (lflag : Nat),
      main_loop after frames lflag = Proc.running lflag ∨
      main_loop after frames lflag = Proc.exited 1 lflag ∨
      main_loop after frames lflag = after lflag
  | [], lflag => Or.inl rfl
  | (key, ok) :: rest, lflag => by
    unfold main_loop
    rcases sleep_ms_cases 30 ok lflag with h | h
    · right; left; rw [h]; rfl
    · rw [h, bind_running]
      by_cases hk : key ≠ 113
      · rw [if_pos hk]
        exact main_loop_cases after rest lflag
      · rw [if_neg hk]
        right; right; rfl

/-- C9, the code at the failing inputs. From a terminal with `ICANON` and `ECHO` set
(`0x8a3b`) every call of `init_graphics` succeeds and leaves the terminal raw (`0x8a31`,
both flags clear). When the `nanosleep` of the first `sleep_ms(50)` then returns `-1`,
`main` ends by `_exit(1)` with the terminal still raw; the same happens when the run
reaches `exit_graphics` after the key `q` and the `open` of `keypress_switch(1)` fails. -/
theorem main_exits_with_terminal_raw :
    init_graphics ⟨true, true, true, true⟩ ⟨true, true, true⟩ 0x8a3b = Proc.running 0x8a31 ∧
    main ⟨⟨true, true, true, true⟩, ⟨true, true, true⟩, false, true, true, [],
        ⟨true, true, true⟩⟩ 0x8a3b = Proc.exited 1 0x8a31 ∧
    main ⟨⟨true, true, true, true⟩, ⟨true, true, true⟩, true, true, true, [(113, true)],
        ⟨false, true, true⟩⟩ 0x8a3b = Proc.exited 1 0x8a31 ∧
    0x8a3b &&& ICANON = ICANON ∧ 0x8a3b &&& ECHO = ECHO ∧
    0x8a31 &&& ICANON = 0 ∧ 0x8a31 &&& ECHO = 0 := by
  decide

/-- Exit states of `main`, for any results of its system calls: a run that ends with
status 0 has `ICANON` and `ECHO` set; a run ended by `_exit(1)` leaves the flag word either
as it was when the program started (failure inside `init_graphics`) or with both flags
clear (failure of `nanosleep` or of a system call of `keypress_switch(1)`). -/
theorem main_exit_states (calls : MainCalls) (lflag : Nat) (h32 : lflag < 4294967296)
    (status : Int) (final : Nat) (h : main calls lflag = Proc.exited status final) :
    (status = 0 ∧ final &&& ICANON = ICANON ∧ final &&& ECHO = ECHO) ∨
    (status = 1 ∧ final = lflag) ∨
    (status = 1 ∧ final &&& ICANON = 0 ∧ final &&& ECHO = 0) := by
  unfold main at h
  rcases init_graphics_cases calls.fb calls.raw lflag with hi | hi
  · rw [hi, bind_exited] at h
    injection h with hs hl
    exact Or.inr (Or.inl ⟨hs.symm, hl.symm⟩)
  · rw [hi, bind_running] at h
    have hraw := raw_flags_clear lflag h32
    generalize (lflag &&& lflag_not ICANON) &&& lflag_not ECHO = raw at h hraw
    have fatal : ∀ {s : Int} {l : Nat}, Proc.exited 1 raw = Proc.exited s l →
        (s = 0 ∧ l &&& ICANON = ICANON ∧ l &&& ECHO = ECHO) ∨
        (s = 1 ∧ l = lflag) ∨ (s = 1 ∧ l &&& ICANON = 0 ∧ l &&& ECHO = 0) := by
      intro s l he
      injection he with hs hl
      subst hs; subst hl
      exact Or.inr (Or.inr ⟨rfl, hraw⟩)
    rcases sleep_ms_cases 50 calls.sleep1 raw with h1 | h1
    · rw [h1] at h; exact fatal h
    rw [h1, bind_running] at h
    rcases sleep_ms_cases 50 calls.sleep2 raw with h2 | h2
    · rw [h2] at h; exact fatal h
    rw [h2, bind_running] at h
    rcases sleep_ms_cases 50 calls.sleep3 raw with h3 | h3
    · rw [h3] at h; exact fatal h
    rw [h3, bind_running] at h
    rcases main_loop_cases (fun lflag => (exit_graphics calls.restore lflag).bind fun lflag =>
      Proc.exited 0 lflag) calls.frames raw with hl | hl | hl
    · rw [hl] at h; cases h
    · rw [hl] at h; exact fatal h
    · rw [hl] at h
      simp only [exit_graphics] at h
      rcases keypress_switch_cases 1 calls.restore raw with hk | hk
      · rw [hk] at h; exact fatal h
      · rw [hk, bind_running] at h
        injection h with hs hl2
        subst hs; subst hl2
        exact Or.inl ⟨rfl, by simpa using restored_flags_set raw⟩

/-- The exit states of `main` on a run that moves once and then quits. -/
theorem main_exit_states_witness :
    ((0 : Int) = 0 ∧ 0x8a3b &&& ICANON = ICANON ∧ 0x8a3b &&& ECHO = ECHO) ∨
    ((0 : Int) = 1 ∧ 0x8a3b = 0x8a33) ∨
    ((0 : Int) = 1 ∧ 0x8a3b &&& ICANON = 0 ∧ 0x8a3b &&& ECHO = 0) :=
  main_exit_states ⟨⟨true, true, true, true⟩, ⟨true, true, true⟩, true, true, true,
    [(119, true), (113, true)], ⟨true, true, true⟩⟩ 0x8a33 (by decide) 0 0x8a3b (by decide)

end Graphics
